import Mathlib

/-!
Verification of the matuwrap native helper module (src/rust/src/lib.rs).

The Rust module is embedded shallowly: pure helpers (the wpctl status
parser, the matugen JSON color extraction) become Lean functions on
`List Char` / `String`, and every I/O boundary (filesystem reads, file
metadata, process spawning, socket connection) becomes an explicit field
of an environment record that the embedded functions consume.  Machine
integers are modelled as `Nat` with the exact bounds the Rust parsers
enforce; the `f64` volume value is carried as the exact decimal rational
(the rounding of a decimal literal to the nearest binary double is not
modelled, and no claim distinguishes values that close together).
-/

namespace Matuwrap

/-- Unicode white-space test matching Rust `char::is_whitespace` (the
White_Space property), the predicate used by `str::trim`. -/
def rustIsWhitespace (c : Char) : Bool :=
  decide ((0x09 ≤ c.toNat ∧ c.toNat ≤ 0x0D) ∨ c.toNat = 0x20 ∨ c.toNat = 0x85 ∨
    c.toNat = 0xA0 ∨ c.toNat = 0x1680 ∨ (0x2000 ≤ c.toNat ∧ c.toNat ≤ 0x200A) ∨
    c.toNat = 0x2028 ∨ c.toNat = 0x2029 ∨ c.toNat = 0x202F ∨ c.toNat = 0x205F ∨
    c.toNat = 0x3000)

/-- Rust `str::trim`: drop leading and trailing whitespace. -/
def trimChars (s : List Char) : List Char :=
  ((s.dropWhile rustIsWhitespace).reverse.dropWhile rustIsWhitespace).reverse

/-- Index of the first character satisfying `p`, Rust `str::find` with a
char pattern (for the ASCII characters searched here, char indices and
byte indices coincide on every split the parser performs). -/
def idxWhere (p : Char → Bool) : List Char → Option Nat
  | [] => none
  | c :: cs => if p c then some 0 else (idxWhere p cs).map (· + 1)

/-- Whether `pat` occurs at the head of the second list. -/
def leadsChars : List Char → List Char → Bool
  | [], _ => true
  | _ :: _, [] => false
  | p :: ps, c :: cs => p == c && leadsChars ps cs

/-- Index of the first occurrence of `pat`, Rust `str::find` with a
string pattern. -/
def findSub (pat : List Char) : List Char → Option Nat
  | [] => if pat.isEmpty then some 0 else none
  | c :: cs => if leadsChars pat (c :: cs) then some 0 else (findSub pat cs).map (· + 1)

/-- Substring containment, Rust `str::contains` with a string pattern. -/
def hasSub (pat : List Char) (s : List Char) : Bool :=
  (findSub pat s).isSome

/-- Value of a string of decimal digits. -/
def digitsVal (ds : List Char) : Nat :=
  ds.foldl (fun a c => a * 10 + (c.toNat - 48)) 0

/-- Rust `u32::from_str`: an optional leading `+`, then one or more ASCII
digits; the empty string, any other character, and values at or above
`2 ^ 32` are rejected. -/
def parseU32 (s : List Char) : Option Nat :=
  let ds := match s with
    | '+' :: r => r
    | r => r
  if !ds.isEmpty && ds.all Char.isDigit && decide (digitsVal ds < 4294967296) then
    some (digitsVal ds)
  else none

/-- Result of parsing a floating-point literal.  The finite case carries
the exact decimal value as a rational. -/
inductive FloatVal where
  | finite (q : ℚ)
  | posInf
  | negInf
  | nan
deriving DecidableEq

/-- ASCII-only lower casing, as used by Rust for the special float words. -/
def asciiLower (c : Char) : Char :=
  if decide (65 ≤ c.toNat ∧ c.toNat ≤ 90) then Char.ofNat (c.toNat + 32) else c

/-- Exponent part of the Rust `f64` grammar: optional sign then digits. -/
def parseExpPart (s : List Char) : Option Int :=
  let signed : Bool × List Char :=
    match s with
    | '+' :: r => (false, r)
    | '-' :: r => (true, r)
    | r => (false, r)
  if !signed.2.isEmpty && signed.2.all Char.isDigit then
    some (if signed.1 then -(digitsVal signed.2 : Int) else (digitsVal signed.2 : Int))
  else none

/-- Mantissa of the Rust `f64` grammar: digits, optionally split by one
dot, with at least one digit overall.  The exact decimal value is built
with core `Rat` operations so that it evaluates by kernel reduction. -/
def parseMantissa (s : List Char) : Option ℚ :=
  match idxWhere (fun c => c == '.') s with
  | none =>
    if !s.isEmpty && s.all Char.isDigit then some (mkRat (Int.ofNat (digitsVal s)) 1) else none
  | some i =>
    let ip := s.take i
    let fp := s.drop (i + 1)
    if (!ip.isEmpty || !fp.isEmpty) && ip.all Char.isDigit && fp.all Char.isDigit then
      some (mkRat (Int.ofNat (digitsVal ip * 10 ^ fp.length + digitsVal fp)) (10 ^ fp.length))
    else none

/-- Multiply a rational by `10 ^ e` for a signed exponent `e`. -/
def scaleByPow10 (m : ℚ) (e : Int) : ℚ :=
  match e with
  | .ofNat n => Rat.mul m (mkRat (Int.ofNat (10 ^ n)) 1)
  | .negSucc n => Rat.mul m (mkRat 1 (10 ^ (n + 1)))

/-- Decimal number of the Rust `f64` grammar: mantissa with optional
`e`/`E` exponent. -/
def parseDecNumber (s : List Char) : Option ℚ :=
  match idxWhere (fun c => c == 'e' || c == 'E') s with
  | none => parseMantissa s
  | some i =>
    match parseMantissa (s.take i), parseExpPart (s.drop (i + 1)) with
    | some m, some e => some (scaleByPow10 m e)
    | _, _ => none

/-- Rust `f64::from_str`: optional sign, then the case-insensitive words
`inf`, `infinity`, `nan`, or a decimal number. -/
def rustParseF64 (s : List Char) : Option FloatVal :=
  let signed : Bool × List Char :=
    match s with
    | '+' :: r => (false, r)
    | '-' :: r => (true, r)
    | r => (false, r)
  let low := signed.2.map asciiLower
  if low = "inf".toList ∨ low = "infinity".toList then
    some (if signed.1 then FloatVal.negInf else FloatVal.posInf)
  else if low = "nan".toList then some FloatVal.nan
  else
    match parseDecNumber signed.2 with
    | some q => some (.finite (if signed.1 then Rat.neg q else q))
    | none => none

/-- The sink record produced by the wpctl status parser (lib.rs 238-251).
`id` is a `u32` in the source; `parseU32` enforces its range. -/
structure AudioSink where
  id : Nat
  name : String
  description : String
  volume : Option FloatVal
  is_default : Bool
deriving DecidableEq

/-- The `"[vol:"` token the parser searches for. -/
def volMarker : List Char := "[vol:".toList

/-- The name/volume split of `parse_sink_line` (lib.rs 281-289): if the
remainder holds the volume token, the trimmed text before it is the name
and the text after it, up to the next `]` or the end, is parsed as the
optional volume; otherwise the whole remainder is the name. -/
def splitVolume (rest : List Char) : List Char × Option FloatVal :=
  match findSub volMarker rest with
  | some vol_start =>
    let nm := trimChars (rest.take vol_start)
    let vol_str := rest.drop (vol_start + 5)
    let vol_end := (idxWhere (fun c => c == ']') vol_str).getD vol_str.length
    (nm, rustParseF64 (trimChars (vol_str.take vol_end)))
  | none => (rest, none)

/-- `parse_sink_line` (lib.rs 265-298): a `*` anywhere marks the default
sink; everything before the first ASCII digit is dropped; the text up to
the first `.` must parse as a `u32` id; the trimmed remainder is split
into name and optional volume. -/
def parse_sink_line (line : List Char) : Option AudioSink :=
  let is_default := line.any (fun c => c == '*')
  let cleaned := line.dropWhile (fun c => !c.isDigit)
  match idxWhere (fun c => c == '.') cleaned with
  | none => none
  | some dot_pos =>
    match parseU32 (trimChars (cleaned.take dot_pos)) with
    | none => none
    | some id =>
      let rest := trimChars (cleaned.drop (dot_pos + 1))
      let nv := splitVolume rest
      some { id := id, name := String.mk nv.1, description := "", volume := nv.2,
             is_default := is_default }

/-- A line contains the sink section header token (lib.rs 322). -/
def sinksTok (l : List Char) : Bool := hasSub "Sinks:".toList l

/-- A line contains one of the section header tokens that end the sink
section (lib.rs 326). -/
def termTok (l : List Char) : Bool :=
  hasSub "Sources:".toList l || hasSub "Streams:".toList l || hasSub "Filters:".toList l

/-- The scan loop of `get_audio_sinks` (lib.rs 318-334), with the
`in_sinks` flag made an explicit argument.  A line containing the sinks
header is always consumed by the `continue` branch first; the terminator
check runs only on the remaining lines while inside the section. -/
def scanSinksAux : Bool → List (List Char) → List AudioSink
  | _, [] => []
  | in_sinks, l :: rest =>
    if sinksTok l then scanSinksAux true rest
    else if in_sinks && termTok l then []
    else if in_sinks then
      match parse_sink_line l with
      | some s => s :: scanSinksAux in_sinks rest
      | none => scanSinksAux in_sinks rest
    else scanSinksAux in_sinks rest

/-- Split a character list at every newline. -/
def splitLinesChars : List Char → List (List Char)
  | [] => [[]]
  | '\n' :: rest => [] :: splitLinesChars rest
  | c :: rest =>
    match splitLinesChars rest with
    | [] => [[c]]
    | l :: ls => (c :: l) :: ls

/-- Drop one trailing carriage return. -/
def stripCRChars (l : List Char) : List Char :=
  if l.getLast? = some '\r' then l.dropLast else l

/-- Rust `str::lines`: split at each newline, drop a carriage return
that preceded a newline, and do not emit a final empty line for a
trailing newline. -/
def rustLinesChars (s : String) : List (List Char) :=
  if s.toList.isEmpty then []
  else
    let parts := splitLinesChars s.toList
    let front := parts.dropLast.map stripCRChars
    match parts.getLast? with
    | some [] => front
    | some last => front ++ [last]
    | none => front

/-- The pure text-to-sinks part of `get_audio_sinks` applied to the
captured stdout (lib.rs 315-334). -/
def scanSinks (stdout : String) : List AudioSink :=
  scanSinksAux false (rustLinesChars stdout)

/-- `get_audio_sinks` (lib.rs 303-336).  The wpctl invocation is an
oracle: `none` models a spawn failure (an OS error is raised), and a
captured output with unsuccessful status models the nonzero-exit error;
in both error cases the Rust function raises, modelled as `none`. -/
def get_audio_sinks (out : Option (Bool × String)) : Option (List AudioSink) :=
  match out with
  | none => none
  | some o => if o.1 then some (scanSinks o.2) else none

/-- The window of lines the scan actually parses, stated declaratively:
everything strictly after the first line containing the sinks header
token, up to the first later line that carries a terminator token
without also carrying the sinks token, minus any line carrying the
sinks token (such lines are always consumed by the `continue` branch). -/
def sinkWindow : List (List Char) → List (List Char)
  | [] => []
  | l :: rest =>
    if sinksTok l then
      (rest.takeWhile fun x => sinksTok x || !termTok x).filter fun x => !sinksTok x
    else sinkWindow rest

/-- Modelled from the words of claim C4: the lines strictly after the
first line containing the sinks header token and strictly before the
first subsequent line containing a sources, streams, or filters header
token. -/
def claimedSinkWindow : List (List Char) → List (List Char)
  | [] => []
  | l :: rest =>
    if sinksTok l then rest.takeWhile (fun x => !termTok x)
    else claimedSinkWindow rest

/-- serde_json values, as far as the module inspects them. -/
inductive Json where
  | null
  | bool (b : Bool)
  | num (q : ℚ)
  | str (s : String)
  | arr (elems : List Json)
  | obj (fields : List (String × Json))

/-- First binding of a key in an object's field list (serde maps have
unique keys, so first-match lookup is the map lookup). -/
def lookupField (fields : List (String × Json)) (k : String) : Option Json :=
  match fields with
  | [] => none
  | f :: rest => if f.1 = k then some f.2 else lookupField rest k

/-- serde `Value::get` with a string key: member lookup on objects,
`None` on every other value. -/
def Json.get (j : Json) (k : String) : Option Json :=
  match j with
  | .obj fields => lookupField fields k
  | _ => none

/-- serde `Value::as_str`. -/
def Json.asStr (j : Json) : Option String :=
  match j with
  | .str s => some s
  | _ => none

/-- The per-color selection of `run_matugen` (lib.rs 178-186): the
`dark` member if it is a string, else the `default` member if it is a
string, else the value itself if it is a raw string, else nothing. -/
def extractColor (val : Json) : Option String :=
  match (val.get "dark").bind Json.asStr with
  | some dark => some dark
  | none =>
    match (val.get "default").bind Json.asStr with
    | some dflt => some dflt
    | none => val.asStr

/-- The color-map construction of `run_matugen` (lib.rs 174-189): if the
`colors` value is an object, keep each member whose value selects a
string; otherwise the map stays empty. -/
def extractColors (colorsObj : Json) : List (String × String) :=
  match colorsObj with
  | .obj fields => fields.filterMap fun kv => (extractColor kv.2).map fun c => (kv.1, c)
  | _ => []

/-- Captured output of an external process: exit status plus, for the
matugen invocation, stdout after `serde_json::from_str` (`none` when the
bytes are not parsable JSON). -/
structure ProcOut where
  success : Bool
  stdoutJson : Option Json

/-- `run_matugen` (lib.rs 148-192) over the spawn oracle: `none` input
is a spawn failure; nonzero exit, unparsable stdout, and JSON without a
`colors` member all yield `none`; otherwise the extracted color map. -/
def run_matugen (out : Option ProcOut) : Option (List (String × String)) :=
  match out with
  | none => none
  | some o =>
    if !o.success then none
    else
      match o.stdoutJson with
      | none => none
      | some j =>
        match j.get "colors" with
        | none => none
        | some colorsObj => some (extractColors colorsObj)

/-- The persisted cache entry (lib.rs 94-99).  `wallpaper_mtime` is a
`u64` count of whole seconds; the colors map is carried as a list of
bindings. -/
structure ColorCache where
  wallpaper_path : String
  wallpaper_mtime : Nat
  colors : List (String × String)

/-- The I/O boundary of the cache subsystem, one oracle per system call.
`cacheDirAvailable` is `dirs::cache_dir().is_some()`; `cacheFileContent`
is the outcome of `fs::read_to_string` on the cache file (`none` when
missing or unreadable); `parseColorCache` is `serde_json::from_str` on
that text; `fileMeta p` is the modification time of `p` in nanoseconds
relative to the epoch (`none` when `fs::metadata` fails, `some none`
when `modified()` fails, negative when before the epoch);
`matugenOut p` is the spawn oracle for `run_matugen`; the remaining
flags are the outcomes of the persistence steps. -/
structure CacheEnv where
  cacheDirAvailable : Bool
  cacheFileContent : Option String
  parseColorCache : String → Option ColorCache
  fileMeta : String → Option (Option Int)
  matugenOut : String → Option ProcOut
  createDirOk : Bool
  serializeOk : Bool
  writeOk : Bool

/-- `get_mtime` (lib.rs 105-113): metadata, modification time, duration
since the epoch (failing for times before it), truncated to whole
seconds by `Duration::as_secs`. -/
def get_mtime (meta : Option (Option Int)) : Option Nat :=
  match meta with
  | some (some t) => if 0 ≤ t then some (t.toNat / 1000000000) else none
  | _ => none

/-- `load_cache` (lib.rs 115-131): read and parse the cache file, then
accept the entry only when the stored path equals the requested path
and the stored mtime equals the wallpaper's current mtime. -/
def load_cache (env : CacheEnv) (wallpaper_path : String) : Option (List (String × String)) :=
  match env.cacheDirAvailable with
  | false => none
  | true =>
    match env.cacheFileContent with
    | none => none
    | some data =>
      match env.parseColorCache data with
      | none => none
      | some cache =>
        if cache.wallpaper_path ≠ wallpaper_path then none
        else
          match get_mtime (env.fileMeta wallpaper_path) with
          | none => none
          | some current_mtime =>
            if cache.wallpaper_mtime ≠ current_mtime then none
            else some cache.colors

/-- `save_cache` (lib.rs 133-146): needs the cache directory, directory
creation, a readable wallpaper mtime, serialization and the final file
write; the first failing step aborts with `none`. -/
def save_cache (env : CacheEnv) (wallpaper_path : String)
    (_colors : List (String × String)) : Option Unit :=
  match env.cacheDirAvailable with
  | false => none
  | true =>
    if !env.createDirOk then none
    else
      match get_mtime (env.fileMeta wallpaper_path) with
      | none => none
      | some _ =>
        if !env.serializeOk then none
        else if !env.writeOk then none
        else some ()

/-- `get_cached_colors` (lib.rs 198-223): return the cached colors on a
hit; otherwise run matugen, returning `none` ("no colors") when it
fails, and on success persist the entry — discarding any persistence
failure — and return the fresh colors. -/
def get_cached_colors (env : CacheEnv) (wallpaper_path : String) :
    Option (List (String × String)) :=
  match load_cache env wallpaper_path with
  | some colors => some colors
  | none =>
    match run_matugen (env.matugenOut wallpaper_path) with
    | none => none
    | some colors =>
      let _saved := save_cache env wallpaper_path colors
      some colors

/-- The I/O boundary of the Hyprland IPC client. `his` and `xdg` are the
`HYPRLAND_INSTANCE_SIGNATURE` and `XDG_RUNTIME_DIR` environment
variables; `pathExists` is `Path::exists`; `canConnect` is whether
`UnixStream::connect` succeeds; `ioResult` is the outcome of the write
and full read on the connected stream. -/
structure HyprEnv where
  his : Option String
  xdg : Option String
  pathExists : String → Bool
  canConnect : String → Bool
  ioResult : String → Option String

/-- Outcome of `hyprctl`, keeping the error classes the source raises
distinct: the missing-variable error, the connect error, and the
read/write error. -/
inductive HyprOutcome where
  | configError
  | connectionError
  | ioError
  | ok (response : String)
deriving DecidableEq

/-- The runtime-directory socket candidate (lib.rs 55). -/
def xdgSockPath (xdg his : String) : String :=
  xdg ++ "/hypr/" ++ his ++ "/.socket.sock"

/-- The legacy `/tmp` socket candidate (lib.rs 59, 62). -/
def tmpSockPath (his : String) : String :=
  "/tmp/hypr/" ++ his ++ "/.socket.sock"

/-- Socket path resolution of `hyprctl` (lib.rs 54-63): the XDG
candidate when the variable is set and that path exists, else the
legacy path. -/
def resolveSocketPath (env : HyprEnv) (his : String) : String :=
  match env.xdg with
  | some xdg =>
    if env.pathExists (xdgSockPath xdg his) then xdgSockPath xdg his
    else tmpSockPath his
  | none => tmpSockPath his

/-- `hyprctl` (lib.rs 48-82): fail when the instance signature is
absent, resolve the socket path, connect, then write the command and
read the response. -/
def hyprctl (env : HyprEnv) : HyprOutcome :=
  match env.his with
  | none => .configError
  | some his =>
    let sp := resolveSocketPath env his
    if env.canConnect sp then
      match env.ioResult sp with
      | some response => .ok response
      | none => .ioError
    else .connectionError

theorem idxWhere_eq_none {p : Char → Bool} {l : List Char} (h : ∀ c ∈ l, p c = false) :
    idxWhere p l = none := by
  induction l with
  | nil => rfl
  | cons c cs ih =>
    simp [idxWhere, h c (List.mem_cons_self c cs),
      ih fun x hx => h x (List.mem_cons_of_mem c hx)]

theorem mem_of_mem_dropWhile {p : Char → Bool} {l : List Char} {c : Char}
    (h : c ∈ l.dropWhile p) : c ∈ l := by
  induction l with
  | nil => exact h
  | cons x xs ih =>
    by_cases hx : p x
    · rw [List.dropWhile_cons_of_pos hx] at h
      exact List.mem_cons_of_mem x (ih h)
    · rwa [List.dropWhile_cons_of_neg hx] at h

theorem dropWhile_eq_nil_of_all {p : Char → Bool} {l : List Char}
    (h : ∀ c ∈ l, p c = true) : l.dropWhile p = [] := by
  induction l with
  | nil => rfl
  | cons x xs ih =>
    rw [List.dropWhile_cons_of_pos (h x (List.mem_cons_self x xs))]
    exact ih fun c hc => h c (List.mem_cons_of_mem x hc)

theorem scanSinksAux_true_eq (lines : List (List Char)) :
    scanSinksAux true lines =
      ((lines.takeWhile fun l => sinksTok l || !termTok l).filter fun l =>
        !sinksTok l).filterMap parse_sink_line := by
  induction lines with
  | nil => rfl
  | cons l rest ih =>
    by_cases h1 : sinksTok l
    · simp [scanSinksAux, h1, List.takeWhile_cons, List.filter_cons, ih]
    · by_cases h2 : termTok l
      · simp [scanSinksAux, h1, h2, List.takeWhile_cons]
      · simp only [scanSinksAux, List.takeWhile_cons, List.filter_cons, h1, h2,
          Bool.not_true, Bool.not_false, Bool.false_or, Bool.true_and, if_true, if_false,
          Bool.false_and, ite_true, ite_false, List.filterMap_cons]
        cases hp : parse_sink_line l <;> simp [hp, ih]

theorem scanSinksAux_false_eq (lines : List (List Char)) :
    scanSinksAux false lines = (sinkWindow lines).filterMap parse_sink_line := by
  induction lines with
  | nil => rfl
  | cons l rest ih =>
    by_cases h1 : sinksTok l
    · simp [scanSinksAux, sinkWindow, h1, scanSinksAux_true_eq]
    · simp [scanSinksAux, sinkWindow, h1, ih]

/-- C3: parsing well-formed sink lines yields the records the spec
requires: the two example lines produce the expected id, name, volume
and default flag; in general a `*` anywhere in the line sets the
default flag, the id is the integer parsed between the first digit and
the first following dot, the name is the trimmed text before the
volume token, and a volume that fails to parse yields an absent volume
on an otherwise complete record rather than a skipped line. -/
theorem C3_sink_line_parse :
    parse_sink_line " │ *   34. Headset [vol: 0.60]".toList =
        some ⟨34, "Headset", "", some (.finite (mkRat 3 5)), true⟩ ∧
    parse_sink_line " │     2. Speakers".toList = some ⟨2, "Speakers", "", none, false⟩ ∧
    (∀ line : List Char, ∀ s : AudioSink, parse_sink_line line = some s →
      s.is_default = line.any (fun c => c == '*')) ∧
    (∀ line : List Char, ∀ i n : Nat, ∀ s : AudioSink,
      idxWhere (fun c => c == '.') (line.dropWhile fun c => !c.isDigit) = some i →
      parseU32 (trimChars ((line.dropWhile fun c => !c.isDigit).take i)) = some n →
      parse_sink_line line = some s → s.id = n) ∧
    (∀ rest : List Char, ∀ v : Nat, findSub volMarker rest = some v →
      (splitVolume rest).1 = trimChars (rest.take v)) ∧
    parse_sink_line " │ 7. Mixer [vol: x.y]".toList = some ⟨7, "Mixer", "", none, false⟩ := by
  refine ⟨by decide, by decide, ?_, ?_, ?_, by decide⟩
  · intro line s h
    simp only [parse_sink_line] at h
    split at h
    · exact absurd h (by simp)
    · split at h
      · exact absurd h (by simp)
      · injection h with h
        subst h
        rfl
  · intro line i n s hidx hid h
    simp only [parse_sink_line, hidx, hid] at h
    injection h with h
    subst h
    rfl
  · intro rest v hv
    simp [splitVolume, hv]

/-- C4 as stated is refuted: a line carrying both the sinks header
token and a terminator token is consumed by the `continue` branch
instead of terminating the scan, so a later sink line outside the
claimed window is still parsed. -/
theorem C4_counterexample :
    get_audio_sinks (some (true, "Sinks:\nSinks: Sources:\n 2. Foo")) ≠
        some ((claimedSinkWindow (rustLinesChars "Sinks:\nSinks: Sources:\n 2. Foo")).filterMap
          parse_sink_line) ∧
    get_audio_sinks (some (true, "Sinks:\nSinks: Sources:\n 2. Foo")) =
        some [⟨2, "Foo", "", none, false⟩] ∧
    (claimedSinkWindow (rustLinesChars "Sinks:\nSinks: Sources:\n 2. Foo")).filterMap
        parse_sink_line = [] := by
  refine ⟨by decide, by decide, by decide⟩

/-- C4 (amended): `get_audio_sinks` parses exactly the lines strictly
after the first line containing the sinks header token and before the
first subsequent line that contains a sources, streams, or filters
header token without also containing the sinks token (a line containing
the sinks token is skipped, never a terminator), and the returned
records preserve the input order of their lines. -/
theorem C4_sink_section_window (stdout : String) :
    get_audio_sinks (some (true, stdout)) =
      some ((sinkWindow (rustLinesChars stdout)).filterMap parse_sink_line) := by
  simp [get_audio_sinks, scanSinks, scanSinksAux_false_eq]

/-- C7: a section line with no digit, or with no dot, or whose text
between the first digit and the first following dot does not parse as
an integer, yields no record; such a line inside the sink section is
skipped with the scan continuing over the remaining lines, so later
valid lines are still parsed (the header and terminator tokens are what
delimit the section, so the skipped line carries neither). -/
theorem C7_malformed_line_skipped :
    (∀ line : List Char, (∀ c ∈ line, c.isDigit = false) → parse_sink_line line = none) ∧
    (∀ line : List Char, (∀ c ∈ line, (c == '.') = false) → parse_sink_line line = none) ∧
    (∀ line : List Char, ∀ i : Nat,
      idxWhere (fun c => c == '.') (line.dropWhile fun c => !c.isDigit) = some i →
      parseU32 (trimChars ((line.dropWhile fun c => !c.isDigit).take i)) = none →
      parse_sink_line line = none) ∧
    (∀ line : List Char, ∀ rest : List (List Char),
      parse_sink_line line = none → sinksTok line = false → termTok line = false →
      scanSinksAux true (line :: rest) = scanSinksAux true rest) ∧
    scanSinks "Sinks:\n!! garbage !!\n │ 3. Ok" = [⟨3, "Ok", "", none, false⟩] := by
  refine ⟨?_, ?_, ?_, ?_, by decide⟩
  · intro line h
    have hdrop : line.dropWhile (fun c => !c.isDigit) = [] :=
      dropWhile_eq_nil_of_all fun c hc => by simp [h c hc]
    simp [parse_sink_line, hdrop, idxWhere]
  · intro line h
    have hidx : idxWhere (fun c => c == '.') (line.dropWhile fun c => !c.isDigit) = none :=
      idxWhere_eq_none fun c hc => h c (mem_of_mem_dropWhile hc)
    simp [parse_sink_line, hidx]
  · intro line i hidx hid
    simp [parse_sink_line, hidx, hid]
  · intro line rest hp hs ht
    simp [scanSinksAux, hs, ht, hp]

/-- C10: when the volume token is present but no closing bracket
follows it, the volume text extends to the end of the line and the line
still parses into a record with that optional volume. -/
theorem C10_unterminated_volume :
    (∀ rest : List Char, ∀ v : Nat, findSub volMarker rest = some v →
      idxWhere (fun c => c == ']') (rest.drop (v + 5)) = none →
      splitVolume rest =
        (trimChars (rest.take v), rustParseF64 (trimChars (rest.drop (v + 5))))) ∧
    parse_sink_line " │  5. Mic [vol: 0.5".toList =
      some ⟨5, "Mic", "", some (.finite (mkRat 1 2)), false⟩ := by
  refine ⟨?_, by decide⟩
  intro rest v hv hidx
  simp only [splitVolume, hv, hidx, Option.getD_none]
  rw [List.take_length]

/-- C1: with a readable, deserializable cache entry, the lookup is a
hit exactly when the stored path equals the requested path and the
stored mtime equals the wallpaper's current whole-second mtime; on a
hit `get_cached_colors` returns the stored colors whatever the external
tool would do (it is not consulted), and otherwise the lookup is a miss
and the function behaves as if no entry existed.  A missing wallpaper
or unreadable metadata makes `get_mtime` return `none`, so the mtime
condition fails and the lookup misses. -/
theorem C1_cache_validity (env : CacheEnv) (p data : String) (cache : ColorCache)
    (hdir : env.cacheDirAvailable = true)
    (hread : env.cacheFileContent = some data)
    (hparse : env.parseColorCache data = some cache) :
    (load_cache env p =
      if cache.wallpaper_path = p ∧ get_mtime (env.fileMeta p) = some cache.wallpaper_mtime
      then some cache.colors else none) ∧
    (cache.wallpaper_path = p → get_mtime (env.fileMeta p) = some cache.wallpaper_mtime →
      ∀ mg : String → Option ProcOut,
        get_cached_colors { env with matugenOut := mg } p = some cache.colors) ∧
    (¬(cache.wallpaper_path = p ∧ get_mtime (env.fileMeta p) = some cache.wallpaper_mtime) →
      get_cached_colors env p = get_cached_colors { env with cacheFileContent := none } p) := by
  have h1 : load_cache env p =
      if cache.wallpaper_path = p ∧ get_mtime (env.fileMeta p) = some cache.wallpaper_mtime
      then some cache.colors else none := by
    simp only [load_cache, hdir, hread, hparse]
    by_cases hp : cache.wallpaper_path = p
    · cases hm : get_mtime (env.fileMeta p) with
      | none => simp [hp, hm]
      | some cur =>
        by_cases hq : cache.wallpaper_mtime = cur
        · simp [hp, hm, hq]
        · have hq2 : ¬(cur = cache.wallpaper_mtime) := fun h => hq h.symm
          simp [hp, hm, hq, hq2]
    · simp [hp]
  have hnone : load_cache { env with cacheFileContent := none } p = none := by
    unfold load_cache
    cases env.cacheDirAvailable <;> rfl
  refine ⟨h1, ?_, ?_⟩
  · intro hp hm mg
    have hl : load_cache { env with matugenOut := mg } p = some cache.colors := by
      show load_cache env p = some cache.colors
      rw [h1, if_pos ⟨hp, hm⟩]
    simp [get_cached_colors, hl]
  · intro hmiss
    have hl : load_cache env p = none := by rw [h1, if_neg hmiss]
    unfold get_cached_colors
    rw [hl, hnone]

/-- C2: every failure to read or deserialize the cache file is a clean
miss, and `get_cached_colors` then behaves exactly as if no cache file
existed; being a total function, it returns that result rather than
propagating any error. -/
theorem C2_cache_read_failure (env : CacheEnv) (p : String)
    (h : env.cacheFileContent = none ∨
      ∀ data : String, env.cacheFileContent = some data → env.parseColorCache data = none) :
    load_cache env p = none ∧
    get_cached_colors env p = get_cached_colors { env with cacheFileContent := none } p := by
  have hl : load_cache env p = none := by
    unfold load_cache
    cases hdir : env.cacheDirAvailable with
    | false => rfl
    | true =>
      cases hc : env.cacheFileContent with
      | none => rfl
      | some data =>
        rcases h with h | h
        · rw [hc] at h
          exact absurd h (by simp)
        · simp [h data hc]
  have hnone : load_cache { env with cacheFileContent := none } p = none := by
    unfold load_cache
    cases env.cacheDirAvailable <;> rfl
  refine ⟨hl, ?_⟩
  unfold get_cached_colors
  rw [hl, hnone]

/-- C5: per color value the extraction prefers the `dark` variant
string, falls back to the `default` variant string when `dark` is
absent, uses a raw string value directly, and emits no binding at all
for a value offering none of these; on the spec's example JSON it
selects `#112233` for `primary`. -/
theorem C5_variant_selection :
    (∀ v : Json, ∀ d : String, v.get "dark" = some (.str d) → extractColor v = some d) ∧
    (∀ v : Json, ∀ d : String, v.get "dark" = none → v.get "default" = some (.str d) →
      extractColor v = some d) ∧
    (∀ s : String, extractColor (.str s) = some s) ∧
    (∀ k : String, ∀ v : Json, extractColor v = none → extractColors (.obj [(k, v)]) = []) ∧
    run_matugen (some ⟨true, some (.obj [("colors", .obj [("primary",
        .obj [("dark", .str "#112233"), ("default", .str "#000000")])])])⟩) =
      some [("primary", "#112233")] := by
  refine ⟨?_, ?_, fun s => rfl, ?_, rfl⟩
  · intro v d h
    simp [extractColor, h, Json.asStr]
  · intro v d h1 h2
    simp [extractColor, h1, h2, Json.asStr]
  · intro k v h
    simp [extractColors, h]

/-- C6: each of the three failure modes of the external invocation —
spawn failure, nonzero exit, stdout without parsable JSON carrying a
`colors` member — makes `run_matugen` yield nothing, and on a cache
miss `get_cached_colors` then returns absence rather than an error. -/
theorem C6_matugen_failure_yields_none :
    run_matugen none = none ∧
    (∀ j : Option Json, run_matugen (some ⟨false, j⟩) = none) ∧
    run_matugen (some ⟨true, none⟩) = none ∧
    (∀ j : Json, j.get "colors" = none → run_matugen (some ⟨true, some j⟩) = none) ∧
    (∀ env : CacheEnv, ∀ p : String, load_cache env p = none →
      run_matugen (env.matugenOut p) = none → get_cached_colors env p = none) := by
  refine ⟨rfl, fun j => rfl, rfl, ?_, ?_⟩
  · intro j h
    simp [run_matugen, h]
  · intro env p h1 h2
    simp [get_cached_colors, h1, h2]

/-- C8: every persistence step can fail — no cache directory, directory
creation failure, unreadable wallpaper mtime, serialization failure,
write failure — and whenever the save fails after a miss with a
successful extraction, `get_cached_colors` still returns the freshly
extracted colors unchanged. -/
theorem C8_persist_failure_nonfatal :
    (∀ env : CacheEnv, ∀ p : String, ∀ c : List (String × String),
      env.cacheDirAvailable = false → save_cache env p c = none) ∧
    (∀ env : CacheEnv, ∀ p : String, ∀ c : List (String × String),
      env.createDirOk = false → save_cache env p c = none) ∧
    (∀ env : CacheEnv, ∀ p : String, ∀ c : List (String × String),
      get_mtime (env.fileMeta p) = none → save_cache env p c = none) ∧
    (∀ env : CacheEnv, ∀ p : String, ∀ c : List (String × String),
      env.serializeOk = false → save_cache env p c = none) ∧
    (∀ env : CacheEnv, ∀ p : String, ∀ c : List (String × String),
      env.writeOk = false → save_cache env p c = none) ∧
    (∀ env : CacheEnv, ∀ p : String, ∀ colors : List (String × String),
      load_cache env p = none → run_matugen (env.matugenOut p) = some colors →
      save_cache env p colors = none → get_cached_colors env p = some colors) := by
  refine ⟨?_, ?_, ?_, ?_, ?_, ?_⟩
  · intro env p c h
    unfold save_cache
    rw [h]
  · intro env p c h
    unfold save_cache
    cases env.cacheDirAvailable
    · rfl
    · simp [h]
  · intro env p c h
    unfold save_cache
    cases env.cacheDirAvailable
    · rfl
    · cases env.createDirOk <;> simp [h]
  · intro env p c h
    unfold save_cache
    cases env.cacheDirAvailable
    · rfl
    · cases env.createDirOk <;> cases hm : get_mtime (env.fileMeta p) <;> simp [h]
  · intro env p c h
    unfold save_cache
    cases env.cacheDirAvailable
    · rfl
    · cases env.createDirOk <;> cases hm : get_mtime (env.fileMeta p) <;>
        cases env.serializeOk <;> simp [h]
  · intro env p colors h1 h2 _h3
    simp [get_cached_colors, h1, h2]

/-- C9: `hyprctl` fails with the configuration error exactly when the
instance-signature variable is absent; otherwise it resolves the socket
from the XDG candidate when that path exists and from the legacy `/tmp`
candidate when the variable is unset or the XDG path does not exist,
and it fails with the connection error precisely when the resolved
socket cannot be connected to. -/
theorem C9_hyprctl_resolution :
    (∀ env : HyprEnv, env.his = none → hyprctl env = .configError) ∧
    (∀ env : HyprEnv, ∀ his : String, env.his = some his →
      (hyprctl env = .connectionError ↔
        env.canConnect (resolveSocketPath env his) = false)) ∧
    (∀ env : HyprEnv, ∀ his xdg : String, env.xdg = some xdg →
      env.pathExists (xdgSockPath xdg his) = true →
      resolveSocketPath env his = xdgSockPath xdg his) ∧
    (∀ env : HyprEnv, ∀ his : String,
      (env.xdg = none ∨ ∀ xdg : String, env.xdg = some xdg →
        env.pathExists (xdgSockPath xdg his) = false) →
      resolveSocketPath env his = tmpSockPath his) := by
  refine ⟨?_, ?_, ?_, ?_⟩
  · intro env h
    simp [hyprctl, h]
  · intro env his h
    simp only [hyprctl, h]
    cases hc : env.canConnect (resolveSocketPath env his) with
    | false => simp [hc]
    | true =>
      simp only [hc, if_true]
      cases env.ioResult (resolveSocketPath env his) <;> simp
  · intro env his xdg h1 h2
    simp [resolveSocketPath, h1, h2]
  · intro env his h
    rcases h with h | h
    · simp [resolveSocketPath, h]
    · cases hx : env.xdg with
      | none => simp [resolveSocketPath, hx]
      | some xdg => simp [resolveSocketPath, hx, h xdg hx]

/-- A stored entry matching wallpaper `"w"` with mtime 5 seconds. -/
def cacheHitEntry : ColorCache := ⟨"w", 5, [("primary", "#112233")]⟩

/-- Environment with a valid persisted entry for wallpaper `"w"`. -/
def envHit : CacheEnv where
  cacheDirAvailable := true
  cacheFileContent := some "data"
  parseColorCache := fun s => if s = "data" then some cacheHitEntry else none
  fileMeta := fun q => if q = "w" then some (some 5000000000) else none
  matugenOut := fun _ => none
  createDirOk := true
  serializeOk := true
  writeOk := true

/-- Witness for C1 at `envHit`: the valid entry is served as a hit even
though the matugen oracle would fail. -/
theorem C1_witness :
    get_cached_colors { envHit with matugenOut := fun _ => none } "w" =
      some [("primary", "#112233")] :=
  (C1_cache_validity envHit "w" "data" cacheHitEntry rfl rfl rfl).2.1 rfl rfl (fun _ => none)

/-- Environment whose cache file holds text that does not deserialize. -/
def envBadCache : CacheEnv where
  cacheDirAvailable := true
  cacheFileContent := some "garbage"
  parseColorCache := fun _ => none
  fileMeta := fun _ => none
  matugenOut := fun _ => none
  createDirOk := true
  serializeOk := true
  writeOk := true

/-- Witness for C2 at `envBadCache`. -/
theorem C2_witness :
    load_cache envBadCache "w" = none ∧
    get_cached_colors envBadCache "w" =
      get_cached_colors { envBadCache with cacheFileContent := none } "w" :=
  C2_cache_read_failure envBadCache "w" (Or.inr fun _ _ => rfl)

/-- Witness for C3: the default flag of the parsed example record is
the `*` test on its line. -/
theorem C3_witness :
    ({ id := 34, name := "Headset", description := "", volume := some (.finite (mkRat 3 5)),
        is_default := true } : AudioSink).is_default =
      " │ *   34. Headset [vol: 0.60]".toList.any (fun c => c == '*') :=
  C3_sink_line_parse.2.2.1 " │ *   34. Headset [vol: 0.60]".toList _ C3_sink_line_parse.1

/-- Witness for C5: the dark variant is selected on a concrete value. -/
theorem C5_witness :
    extractColor (.obj [("dark", .str "#112233"), ("default", .str "#000000")]) =
      some "#112233" :=
  C5_variant_selection.1 (.obj [("dark", .str "#112233"), ("default", .str "#000000")])
    "#112233" rfl

/-- Environment with no usable cache entry and a failing matugen run. -/
def envMatugenFail : CacheEnv where
  cacheDirAvailable := true
  cacheFileContent := none
  parseColorCache := fun _ => none
  fileMeta := fun _ => none
  matugenOut := fun _ => some ⟨false, none⟩
  createDirOk := true
  serializeOk := true
  writeOk := true

/-- Witness for C6 at `envMatugenFail`: nonzero exit yields absence. -/
theorem C6_witness : get_cached_colors envMatugenFail "w" = none :=
  C6_matugen_failure_yields_none.2.2.2.2 envMatugenFail "w" rfl rfl

/-- Witness for C7: a garbled line inside the sink section is skipped
and the scan continues on the remaining lines. -/
theorem C7_witness :
    scanSinksAux true ("!! garbage !!".toList :: [" │ 3. Ok".toList]) =
      scanSinksAux true [" │ 3. Ok".toList] :=
  C7_malformed_line_skipped.2.2.2.1 "!! garbage !!".toList [" │ 3. Ok".toList]
    (by decide) (by decide) (by decide)

/-- Environment where extraction succeeds but the wallpaper's metadata
is unreadable, so persisting the entry fails at the mtime step. -/
def envSaveFail : CacheEnv where
  cacheDirAvailable := true
  cacheFileContent := none
  parseColorCache := fun _ => none
  fileMeta := fun _ => none
  matugenOut := fun _ => some ⟨true, some (.obj [("colors", .obj [("primary",
    .obj [("dark", .str "#112233"), ("default", .str "#000000")])])])⟩
  createDirOk := true
  serializeOk := true
  writeOk := true

/-- Witness for C8 at `envSaveFail`: the failed save does not affect
the returned colors. -/
theorem C8_witness : get_cached_colors envSaveFail "w" = some [("primary", "#112233")] :=
  C8_persist_failure_nonfatal.2.2.2.2.2 envSaveFail "w" [("primary", "#112233")] rfl rfl rfl

/-- IPC environment where the XDG socket path exists but nothing can be
connected to. -/
def envHypr : HyprEnv where
  his := some "sig"
  xdg := some "/run/user/1000"
  pathExists := fun q => q == xdgSockPath "/run/user/1000" "sig"
  canConnect := fun _ => false
  ioResult := fun _ => none

/-- Witness for C9 at `envHypr`: the XDG candidate is resolved and the
failed connection surfaces as the connection error. -/
theorem C9_witness :
    hyprctl envHypr = .connectionError ∧
    resolveSocketPath envHypr "sig" = xdgSockPath "/run/user/1000" "sig" :=
  ⟨(C9_hyprctl_resolution.2.1 envHypr "sig" rfl).mpr rfl,
    C9_hyprctl_resolution.2.2.1 envHypr "sig" "/run/user/1000" rfl (by decide)⟩

/-- Witness for C10: with no closing bracket the volume text runs to
the end of the line. -/
theorem C10_witness :
    splitVolume "Mic [vol: 0.5".toList =
      (trimChars ("Mic [vol: 0.5".toList.take 4),
        rustParseF64 (trimChars ("Mic [vol: 0.5".toList.drop 9))) :=
  C10_unterminated_volume.1 "Mic [vol: 0.5".toList 4 (by decide) (by decide)

end Matuwrap
